import Mathlib

/-!
Shallow embedding of the Aperture firehose filter (worker.go, main.go,
config.go) and proofs of its specified matching behaviour.

The embedding follows the current versions of `worker.go` and `main.go`:
the `CompiledRuleSet` evaluation loop inside `worker`, the per-event
classification of author / collection / target user, the `extractDID`
helper, the envelope construction, and the rule compilation loop in
`main`. Go maps used as string sets are modelled as lists with membership
lookup; Go's `regexp.Regexp` is modelled by its only used capability, the
`MatchString` predicate; `json.Marshal` is an abstract parameter that may
fail, mirroring its error return.
-/

namespace Aperture

/-- A compiled regular expression, modelled by the one operation the worker
uses on it: `MatchString`. -/
structure Regexp where
  MatchString : String → Bool

/-- A strong reference from the firefly library: only the `Uri` field is read. -/
structure StrongRef where
  Uri : String

/-- Reply metadata of a post; `ReplyTarget` is the immediate reply target. -/
structure ReplyInfo where
  ReplyTarget : StrongRef

/-- External-link embed; only `URL` is read. -/
structure ExternalEmbed where
  URL : String

/-- The embed kind tag (`firefly.EmbedType*`); `other` stands for any value
outside the four recognised constants. -/
inductive EmbedKind where
  | images
  | video
  | external
  | record
  | other
deriving DecidableEq

/-- A post embed: its kind tag (`Embed.Type` in Go) and the optional
external-link payload. -/
structure Embed where
  kind : EmbedKind
  External : Option ExternalEmbed

/-- Author/user info; only `Handle` is read. -/
structure UserInfo where
  Handle : String

/-- The friendly post payload of an event. -/
structure Post where
  Text : String
  Languages : List String
  ReplyInfo : Option ReplyInfo
  Embed : Option Embed
  Author : Option UserInfo

/-- Low-level commit info; only `Collection` is read. -/
structure CommitInfo where
  Collection : String

/-- The raw jetstream event attached to a friendly event. `Identity` and
`Account` payloads matter only through their presence, so they are
modelled as `Option Unit`. -/
structure RawCommit where
  Did : String
  Commit : Option CommitInfo
  Identity : Option Unit
  Account : Option Unit

/-- Like/repost payload: a subject reference. -/
structure SubjectEvent where
  Subject : StrongRef

/-- Delete payload; only `Collection` is read. -/
structure DeleteEvent where
  Collection : String

/-- The event kind tag (`firefly.EventType*`). -/
inductive EventKind where
  | post
  | like
  | repost
  | follow
  | delete
  | identity
  | account
deriving DecidableEq

/-- A `firefly.FirehoseEvent`, restricted to the fields the worker reads.
The Go field `Type` is named `kind` here because `Type` is reserved in
Lean. -/
structure Event where
  kind : EventKind
  Repo : String
  RawCommit : Option RawCommit
  Post : Option Post
  User : Option UserInfo
  LikeEvent : Option SubjectEvent
  RepostEvent : Option SubjectEvent
  DeleteEvent : Option DeleteEvent

/-- A compiled rule set (`CompiledRuleSet` in worker.go). Go's
`map[string]bool` sets become lists queried by membership. -/
structure CompiledRuleSet where
  Name : String
  Collections : List String
  TextPatterns : List Regexp
  UrlPatterns : List Regexp
  Authors : List String
  TargetUsers : List String
  EmbedTypes : List String
  Langs : List String
  IsReply : Option Bool

/-- A declared rule set as read from `config.json` (`RuleSet` in
config.go). -/
structure RuleSet where
  Name : String
  Collections : List String
  TextRegexes : List String
  UrlRegexes : List String
  Authors : List String
  TargetUsers : List String
  EmbedTypes : List String
  Langs : List String
  IsReply : Option Bool
deriving DecidableEq

/-- Go's `strings.Split` for a one-character separator, over the character
list of the string: splits at every occurrence of `sep`, keeping empty
segments, and maps the empty input to one empty segment. -/
def splitOnChar (sep : Char) : List Char → List (List Char)
  | [] => [[]]
  | c :: rest =>
    match splitOnChar sep rest with
    | [] => [[]]
    | h :: t => if c = sep then [] :: h :: t else (c :: h) :: t

/-- The split on slash (`strings.Split` with separator slash) used by `extractDID`. -/
def goSplitSlash (s : String) : List String :=
  (splitOnChar '/' s.data).map List.asString

/-- The `extractDID` closure in `worker` (worker.go): if the URI starts
with `at://`, split on `/` and return the third segment when there are at
least three; otherwise return the empty string. -/
def extractDID (uri : String) : String :=
  if "at://".data.isPrefixOf uri.data then
    let parts := goSplitSlash uri
    if parts.length ≥ 3 then parts.getD 2 "" else ""
  else ""

/-- Author classification in `worker`: take `RawCommit.Did` when a raw
commit is attached, then fall back to `event.Repo` when the result is
empty. -/
def classifyAuthor (e : Event) : String :=
  let authorDID := match e.RawCommit with
    | some rc => rc.Did
    | none => ""
  if authorDID = "" then e.Repo else authorDID

/-- The collection taken from the raw commit (first half of the worker's
collection classification): the commit's collection string, or the
`identity` / `account` sentinels when those raw payloads are present. -/
def rawCollection (e : Event) : String :=
  match e.RawCommit with
  | some rc =>
    match rc.Commit with
    | some commit => commit.Collection
    | none =>
      if rc.Identity.isSome then "identity"
      else if rc.Account.isSome then "account"
      else ""
  | none => ""

/-- The fallback kind → collection table of the worker (the `switch` on
`event.Type`); kinds outside post/like/repost leave the collection
empty. -/
def kindCollection (k : EventKind) : String :=
  match k with
  | .post => "app.bsky.feed.post"
  | .like => "app.bsky.feed.like"
  | .repost => "app.bsky.feed.repost"
  | _ => ""

/-- Collection classification in `worker`: prefer the raw commit's
collection, then fall back to the kind table. -/
def classifyCollection (e : Event) : String :=
  if rawCollection e = "" then kindCollection e.kind
  else rawCollection e

/-- Target-user classification in `worker`: the DID extracted from the
like/repost subject URI, or from the reply target URI of a reply post;
empty otherwise. -/
def classifyTarget (e : Event) : String :=
  match e.kind with
  | .like =>
    match e.LikeEvent with
    | some le => extractDID le.Subject.Uri
    | none => ""
  | .repost =>
    match e.RepostEvent with
    | some re => extractDID re.Subject.Uri
    | none => ""
  | .post =>
    match e.Post with
    | some p =>
      match p.ReplyInfo with
      | some ri => extractDID ri.ReplyTarget.Uri
      | none => ""
    | none => ""
  | _ => ""

/-- Handle enrichment in `worker`: the post author's handle when present,
else the event user's handle, else empty. -/
def classifyHandle (e : Event) : String :=
  match e.Post with
  | some p =>
    match p.Author with
    | some a => a.Handle
    | none =>
      match e.User with
      | some u => u.Handle
      | none => ""
  | none =>
    match e.User with
    | some u => u.Handle
    | none => ""

/-! ## Rule evaluation (the per-rule body of the `worker` loop)

Each numbered check below mirrors one numbered check of the Go loop; a
failed check executes `continue`, so the rule matches exactly when the
conjunction of all checks holds, which short-circuit `&&` reproduces. -/

/-- Check 1 of the worker loop: collection. An empty list is skipped; a
wildcard `"*"` entry bypasses the check; otherwise the event collection
must appear in the list. -/
def collectionCheck (rule : CompiledRuleSet) (collection : String) : Bool :=
  if rule.Collections.length > 0 then
    let wildcard := rule.Collections.any (fun c => c = "*")
    if !wildcard then rule.Collections.any (fun c => c = collection)
    else true
  else true

/-- Check 2: author exact match against the rule's author set. -/
def authorCheck (rule : CompiledRuleSet) (authorDID : String) : Bool :=
  if rule.Authors.length > 0 then rule.Authors.contains authorDID
  else true

/-- Check 3: target user exact match; an empty target DID always fails a
non-empty criterion. -/
def targetCheck (rule : CompiledRuleSet) (targetUserDID : String) : Bool :=
  if rule.TargetUsers.length > 0 then
    if targetUserDID = "" || !rule.TargetUsers.contains targetUserDID then false
    else true
  else true

/-- Check 4: text patterns; requires a post, then any pattern must match
the post text. -/
def textCheck (rule : CompiledRuleSet) (e : Event) : Bool :=
  if rule.TextPatterns.length > 0 then
    match e.Post with
    | none => false
    | some post => rule.TextPatterns.any (fun pat => pat.MatchString post.Text)
  else true

/-- Check 5: URL patterns; requires a post with an external embed, then
any pattern must match the embedded URL. -/
def urlCheck (rule : CompiledRuleSet) (e : Event) : Bool :=
  if rule.UrlPatterns.length > 0 then
    match e.Post with
    | none => false
    | some post =>
      match post.Embed with
      | some em =>
        match em.External with
        | some ext => rule.UrlPatterns.any (fun pat => pat.MatchString ext.URL)
        | none => false
      | none => false
  else true

/-- The string name the worker derives for a post's embed kind (`""` when
no embed is present or its kind is unrecognised). -/
def currentEmbedType (post : Post) : String :=
  match post.Embed with
  | some em =>
    match em.kind with
    | .images => "images"
    | .video => "video"
    | .external => "external"
    | .record => "record"
    | .other => ""
  | none => ""

/-- Check 6: embed types; requires a post, then the derived embed-kind
name must appear in the rule's list. -/
def embedCheck (rule : CompiledRuleSet) (e : Event) : Bool :=
  if rule.EmbedTypes.length > 0 then
    match e.Post with
    | none => false
    | some post => rule.EmbedTypes.any (fun t => t = currentEmbedType post)
  else true

/-- Check 7: languages; requires a post, then some post language must
appear in the rule's list. -/
def langCheck (rule : CompiledRuleSet) (e : Event) : Bool :=
  if rule.Langs.length > 0 then
    match e.Post with
    | none => false
    | some post =>
      post.Languages.any (fun pl => rule.Langs.any (fun rl => pl = rl))
  else true

/-- Check 8: reply constraint; when set it requires a post whose
reply-status equals the constraint. -/
def replyCheck (rule : CompiledRuleSet) (e : Event) : Bool :=
  match rule.IsReply with
  | none => true
  | some b =>
    match e.Post with
    | none => false
    | some post => b = post.ReplyInfo.isSome

/-- Whether one rule matches one event: the conjunction of the eight
checks of the worker loop, in loop order. -/
def evalRule (e : Event) (rule : CompiledRuleSet) : Bool :=
  collectionCheck rule (classifyCollection e) &&
  authorCheck rule (classifyAuthor e) &&
  targetCheck rule (classifyTarget e) &&
  textCheck rule e &&
  urlCheck rule e &&
  embedCheck rule e &&
  langCheck rule e &&
  replyCheck rule e

/-- The `matchedRules` list the worker accumulates: names of the rules
that match, in declaration order. -/
def runRules (e : Event) : List CompiledRuleSet → List String
  | [] => []
  | rule :: rest =>
    if evalRule e rule then rule.Name :: runRules e rest
    else runRules e rest

/-- The payload put in the envelope: the raw commit when available, else
the whole event. -/
inductive Payload where
  | raw (rc : RawCommit)
  | full (e : Event)

/-- The broadcast envelope (`BroadcastMessage` in worker.go). -/
structure BroadcastMessage where
  Event : Payload
  MatchedRules : List String
  AuthorHandle : String

/-- The payload the worker puts in the envelope: the raw commit when
available, else the whole event. -/
def payloadOf (e : Event) : Payload :=
  match e.RawCommit with
  | some rc => .raw rc
  | none => .full e

/-- Envelope construction at the end of the worker's per-event body: an
envelope is built exactly when at least one rule matched. -/
def buildMessage (e : Event) (rules : List CompiledRuleSet) : Option BroadcastMessage :=
  let matched := runRules e rules
  if matched.length > 0 then
    some { Event := payloadOf e,
           MatchedRules := matched,
           AuthorHandle := classifyHandle e }
  else none

/-- One event's full trip through the worker body, with `json.Marshal`
abstracted as `marshal` (it may fail): the bytes pushed onto the
broadcast channel, or `none` when nothing is sent. -/
def processEvent (marshal : BroadcastMessage → Option String) (rules : List CompiledRuleSet)
    (e : Event) : Option String :=
  match buildMessage e rules with
  | some msg => marshal msg
  | none => none

/-- The worker's loop over its job queue, as the sequence of byte strings
it sends on the broadcast channel. -/
def workerRun (marshal : BroadcastMessage → Option String) (rules : List CompiledRuleSet) :
    List Event → List String
  | [] => []
  | e :: rest =>
    match processEvent marshal rules e with
    | some data => data :: workerRun marshal rules rest
    | none => workerRun marshal rules rest

/-! ## Rule compilation (main.go)

`regexp.Compile` is abstracted as a `compile` parameter that may fail;
`log.Fatalf` on a failed compile aborts startup, which the model renders
as `none` for the whole compilation. Go map iteration order for the
aggregated collection set is unspecified, so the aggregate is kept in
first-insertion order; the claims below depend only on its emptiness. -/

/-- Compile a list of pattern strings; the first failure aborts (the Go
loop calls `log.Fatalf`). -/
def compilePatterns (compile : String → Option Regexp) : List String → Option (List Regexp)
  | [] => some []
  | p :: rest =>
    match compile p with
    | none => none
    | some r =>
      match compilePatterns compile rest with
      | none => none
      | some rs => some (r :: rs)

/-- Compile one declared rule (body of the rule loop in `main`): default
the name, copy the collections, compile both pattern lists, copy the
author set. The loop leaves `TargetUsers`, `EmbedTypes`, `Langs` and
`IsReply` at their zero values. -/
def compileRule (compile : String → Option Regexp) (i : Nat) (rule : RuleSet) :
    Option CompiledRuleSet :=
  let name := if rule.Name = "" then "Rule #" ++ toString (i + 1) else rule.Name
  match compilePatterns compile rule.TextRegexes with
  | none => none
  | some tps =>
    match compilePatterns compile rule.UrlRegexes with
    | none => none
    | some ups =>
      some { Name := name,
             Collections := rule.Collections,
             TextPatterns := tps,
             UrlPatterns := ups,
             Authors := rule.Authors,
             TargetUsers := [],
             EmbedTypes := [],
             Langs := [],
             IsReply := none }

/-- Compile the whole declared rule list, indices following declaration
order; any pattern failure in any rule aborts startup. -/
def compileRules (compile : String → Option Regexp) : Nat → List RuleSet → Option (List CompiledRuleSet)
  | _, [] => some []
  | i, rule :: rest =>
    match compileRule compile i rule with
    | none => none
    | some cr =>
      match compileRules compile (i + 1) rest with
      | none => none
      | some crs => some (cr :: crs)

/-- Insert a collection into the aggregate set, keeping first-insertion
order. -/
def insertCollection (acc : List String) (c : String) : List String :=
  if acc.contains c then acc else acc ++ [c]

/-- The union of all declared collections (`collectionsMap` in `main`). -/
def collectCollections (rules : List RuleSet) : List String :=
  rules.foldl (fun acc r => r.Collections.foldl insertCollection acc) []

/-- The collection list handed to the firehose subscription: the declared
union, defaulting to `app.bsky.feed.post` when it is empty. -/
def subscriptionCollections (rules : List RuleSet) : List String :=
  let collections := collectCollections rules
  if collections.length = 0 then ["app.bsky.feed.post"] else collections

/-! ## Specification-side predicates

The spec states the matching invariant as "a RuleSet matches an event iff
every criterion present (non-empty / non-unconstrained) holds (AND across
criteria)". The predicates below write out, per criterion, what "holds
for the event" means, and `specMatches` is the spec's conjunction over
the present criteria; they are compared against `evalRule` in the
theorems. -/

/-- Collection criterion holds: wildcard present, or the event's
collection is listed. -/
def collectionHolds (rule : CompiledRuleSet) (e : Event) : Prop :=
  "*" ∈ rule.Collections ∨ classifyCollection e ∈ rule.Collections

/-- Author criterion holds: the event's author is in the rule's set. -/
def authorHolds (rule : CompiledRuleSet) (e : Event) : Prop :=
  classifyAuthor e ∈ rule.Authors

/-- Target-user criterion holds: the event has a non-empty target and it
is in the rule's set. -/
def targetHolds (rule : CompiledRuleSet) (e : Event) : Prop :=
  classifyTarget e ≠ "" ∧ classifyTarget e ∈ rule.TargetUsers

/-- Text criterion holds: the event carries a post and some pattern
matches its text. -/
def textHolds (rule : CompiledRuleSet) (e : Event) : Prop :=
  ∃ post, e.Post = some post ∧ ∃ pat ∈ rule.TextPatterns, pat.MatchString post.Text = true

/-- URL criterion holds: the event carries a post with an external-link
embed and some pattern matches its URL. -/
def urlHolds (rule : CompiledRuleSet) (e : Event) : Prop :=
  ∃ post em ext, e.Post = some post ∧ post.Embed = some em ∧ em.External = some ext ∧
    ∃ pat ∈ rule.UrlPatterns, pat.MatchString ext.URL = true

/-- Embed-kind criterion holds: the event carries a post whose derived
embed-kind name is listed. -/
def embedHolds (rule : CompiledRuleSet) (e : Event) : Prop :=
  ∃ post, e.Post = some post ∧ currentEmbedType post ∈ rule.EmbedTypes

/-- Language criterion holds: the event carries a post one of whose
languages is listed. -/
def langHolds (rule : CompiledRuleSet) (e : Event) : Prop :=
  ∃ post, e.Post = some post ∧ ∃ l ∈ post.Languages, l ∈ rule.Langs

/-- Reply criterion holds: the event carries a post whose reply status
equals the rule's constraint. -/
def replyHolds (rule : CompiledRuleSet) (e : Event) : Prop :=
  ∃ post, e.Post = some post ∧ rule.IsReply = some post.ReplyInfo.isSome

/-- The spec's matching invariant: every criterion present on the RuleSet
holds for the event; absent criteria (empty list / unset constraint) are
ignored. -/
def specMatches (e : Event) (rule : CompiledRuleSet) : Prop :=
  (rule.Collections ≠ [] → collectionHolds rule e) ∧
  (rule.Authors ≠ [] → authorHolds rule e) ∧
  (rule.TargetUsers ≠ [] → targetHolds rule e) ∧
  (rule.TextPatterns ≠ [] → textHolds rule e) ∧
  (rule.UrlPatterns ≠ [] → urlHolds rule e) ∧
  (rule.EmbedTypes ≠ [] → embedHolds rule e) ∧
  (rule.Langs ≠ [] → langHolds rule e) ∧
  (rule.IsReply ≠ none → replyHolds rule e)

/-! ## Concrete sample data for witnesses and counterexamples -/

/-- A plain post event with no raw commit attached. -/
def samplePostEvent : Event :=
  { kind := .post,
    Repo := "did:plc:alice",
    RawCommit := none,
    Post := some { Text := "hello world",
                   Languages := ["en"],
                   ReplyInfo := none,
                   Embed := none,
                   Author := none },
    User := none,
    LikeEvent := none,
    RepostEvent := none,
    DeleteEvent := none }

/-- A delete event carrying only the friendly delete payload. -/
def sampleDeleteEvent : Event :=
  { kind := .delete,
    Repo := "did:plc:alice",
    RawCommit := none,
    Post := none,
    User := none,
    LikeEvent := none,
    RepostEvent := none,
    DeleteEvent := some { Collection := "app.bsky.feed.post" } }

/-- A like event targeting a post of `did:plc:bob`. -/
def sampleLikeEvent : Event :=
  { kind := .like,
    Repo := "did:plc:alice",
    RawCommit := none,
    Post := none,
    User := none,
    LikeEvent := some { Subject := { Uri := "at://did:plc:bob/app.bsky.feed.post/xyz" } },
    RepostEvent := none,
    DeleteEvent := none }

/-- A rule with no criteria: matches every event. -/
def sampleOpenRule : CompiledRuleSet :=
  { Name := "open",
    Collections := [],
    TextPatterns := [],
    UrlPatterns := [],
    Authors := [],
    TargetUsers := [],
    EmbedTypes := [],
    Langs := [],
    IsReply := none }

/-- A rule constrained to author `did:plc:alice`. -/
def sampleAuthorRule : CompiledRuleSet :=
  { sampleOpenRule with Name := "authored", Authors := ["did:plc:alice"] }

/-- A rule with a target-user criterion. -/
def sampleTargetRule : CompiledRuleSet :=
  { sampleOpenRule with Name := "targeted", TargetUsers := ["did:plc:bob"] }

/-- A rule with a text-pattern criterion (pattern accepting everything). -/
def sampleTextRule : CompiledRuleSet :=
  { sampleOpenRule with Name := "texty", TextPatterns := [⟨fun _ => true⟩] }

/-- An identity event carrying no raw payload. -/
def sampleIdentityEvent : Event :=
  { kind := .identity,
    Repo := "did:plc:alice",
    RawCommit := none,
    Post := none,
    User := none,
    LikeEvent := none,
    RepostEvent := none,
    DeleteEvent := none }

/-- A declared rule whose text pattern list has one (malformed) entry. -/
def sampleBadRule : RuleSet :=
  { Name := "broken",
    Collections := [],
    TextRegexes := ["("],
    UrlRegexes := [],
    Authors := [],
    TargetUsers := [],
    EmbedTypes := [],
    Langs := [],
    IsReply := none }

/-- The envelope the worker builds for `samplePostEvent` against the
single rule `sampleOpenRule`. -/
def sampleMessage : BroadcastMessage :=
  { Event := .full samplePostEvent,
    MatchedRules := ["open"],
    AuthorHandle := "" }

/-! ## Theorems -/

lemma collectionCheck_iff (rule : CompiledRuleSet) (c : String) :
    collectionCheck rule c = true ↔
      (rule.Collections ≠ [] → ("*" ∈ rule.Collections ∨ c ∈ rule.Collections)) := by
  by_cases h : rule.Collections = []
  · simp [collectionCheck, h]
  · have hl : rule.Collections.length > 0 := List.length_pos.mpr h
    by_cases hw : "*" ∈ rule.Collections
    · simp [collectionCheck, hl, h, hw, List.any_eq_true]
    · simp [collectionCheck, hl, h, hw, List.any_eq_true]

lemma authorCheck_iff (rule : CompiledRuleSet) (a : String) :
    authorCheck rule a = true ↔ (rule.Authors ≠ [] → a ∈ rule.Authors) := by
  by_cases h : rule.Authors = []
  · simp [authorCheck, h]
  · have hl : rule.Authors.length > 0 := List.length_pos.mpr h
    simp [authorCheck, hl, h, List.contains]

lemma targetCheck_iff (rule : CompiledRuleSet) (t : String) :
    targetCheck rule t = true ↔ (rule.TargetUsers ≠ [] → (t ≠ "" ∧ t ∈ rule.TargetUsers)) := by
  by_cases h : rule.TargetUsers = []
  · simp [targetCheck, h]
  · have hl : rule.TargetUsers.length > 0 := List.length_pos.mpr h
    by_cases ht : t = ""
    · simp [targetCheck, hl, h, ht]
    · simp [targetCheck, hl, h, ht, List.contains]

lemma textCheck_iff (rule : CompiledRuleSet) (e : Event) :
    textCheck rule e = true ↔ (rule.TextPatterns ≠ [] → textHolds rule e) := by
  by_cases h : rule.TextPatterns = []
  · simp [textCheck, h]
  · have hl : rule.TextPatterns.length > 0 := List.length_pos.mpr h
    cases hP : e.Post with
    | none => simp [textCheck, textHolds, hl, h, hP]
    | some post => simp [textCheck, textHolds, hl, h, hP, List.any_eq_true]

lemma urlCheck_iff (rule : CompiledRuleSet) (e : Event) :
    urlCheck rule e = true ↔ (rule.UrlPatterns ≠ [] → urlHolds rule e) := by
  by_cases h : rule.UrlPatterns = []
  · simp [urlCheck, h]
  · have hl : rule.UrlPatterns.length > 0 := List.length_pos.mpr h
    cases hP : e.Post with
    | none => simp [urlCheck, urlHolds, hl, h, hP]
    | some post =>
      cases hE : post.Embed with
      | none => simp [urlCheck, urlHolds, hl, h, hP, hE]
      | some em =>
        cases hX : em.External with
        | none => simp [urlCheck, urlHolds, hl, h, hP, hE, hX]
        | some ext => simp [urlCheck, urlHolds, hl, h, hP, hE, hX, List.any_eq_true]

lemma embedCheck_iff (rule : CompiledRuleSet) (e : Event) :
    embedCheck rule e = true ↔ (rule.EmbedTypes ≠ [] → embedHolds rule e) := by
  by_cases h : rule.EmbedTypes = []
  · simp [embedCheck, h]
  · have hl : rule.EmbedTypes.length > 0 := List.length_pos.mpr h
    cases hP : e.Post with
    | none => simp [embedCheck, embedHolds, hl, h, hP]
    | some post => simp [embedCheck, embedHolds, hl, h, hP, List.any_eq_true]

lemma langCheck_iff (rule : CompiledRuleSet) (e : Event) :
    langCheck rule e = true ↔ (rule.Langs ≠ [] → langHolds rule e) := by
  by_cases h : rule.Langs = []
  · simp [langCheck, h]
  · have hl : rule.Langs.length > 0 := List.length_pos.mpr h
    cases hP : e.Post with
    | none => simp [langCheck, langHolds, hl, h, hP]
    | some post => simp [langCheck, langHolds, hl, h, hP, List.any_eq_true]

lemma replyCheck_iff (rule : CompiledRuleSet) (e : Event) :
    replyCheck rule e = true ↔ (rule.IsReply ≠ none → replyHolds rule e) := by
  cases hR : rule.IsReply with
  | none => simp [replyCheck, hR]
  | some b =>
    cases hP : e.Post with
    | none => simp [replyCheck, replyHolds, hR, hP]
    | some post => simp [replyCheck, replyHolds, hR, hP, eq_comm]

/-- C1. For every event and every compiled RuleSet, evaluation returns
true iff every criterion present on the RuleSet (non-empty collections
list, non-empty authors set, non-empty target-users set, non-empty
text-pattern list, non-empty URL-pattern list, non-empty embed-kinds
list, non-empty languages list, non-nil reply constraint) holds for the
event; criteria whose list is empty or whose constraint is unset are
ignored (AND across present criteria). -/
theorem evaluate_iff_every_present_criterion_holds (e : Event) (rule : CompiledRuleSet) :
    evalRule e rule = true ↔ specMatches e rule := by
  simp only [evalRule, Bool.and_eq_true, collectionCheck_iff, authorCheck_iff,
    targetCheck_iff, textCheck_iff, urlCheck_iff, embedCheck_iff, langCheck_iff,
    replyCheck_iff, specMatches, collectionHolds, authorHolds, targetHolds]
  tauto

lemma runRules_eq_filter_map (e : Event) (rules : List CompiledRuleSet) :
    runRules e rules = (rules.filter (fun r => evalRule e r)).map CompiledRuleSet.Name := by
  induction rules with
  | nil => rfl
  | cons r rest ih =>
    by_cases h : evalRule e r = true
    · simp [runRules, List.filter_cons, h, ih]
    · simp [runRules, List.filter_cons, h, ih]

lemma buildMessage_some (e : Event) (rules : List CompiledRuleSet)
    (h : runRules e rules ≠ []) :
    buildMessage e rules =
      some ⟨payloadOf e, runRules e rules, classifyHandle e⟩ := by
  simp [buildMessage, List.length_pos.mpr h]

lemma buildMessage_none (e : Event) (rules : List CompiledRuleSet)
    (h : runRules e rules = []) :
    buildMessage e rules = none := by
  simp [buildMessage, h]

/-- C2. For every dequeued event: if the event matches at least one
RuleSet, the worker builds exactly one broadcast envelope whose
`matchedRules` are exactly the names of the matching RuleSets in
declaration order; if it matches zero RuleSets, no envelope is built and
nothing is sent on the broadcast channel. -/
theorem one_envelope_with_exact_matched_rules (e : Event) (rules : List CompiledRuleSet) :
    ((∃ r ∈ rules, evalRule e r = true) →
      ∃ msg, buildMessage e rules = some msg ∧
        msg.MatchedRules = (rules.filter (fun r => evalRule e r)).map CompiledRuleSet.Name) ∧
    ((∀ r ∈ rules, evalRule e r = false) →
      buildMessage e rules = none ∧
        ∀ marshal : BroadcastMessage → Option String, processEvent marshal rules e = none) := by
  constructor
  · rintro ⟨r, hr, he⟩
    have hmem : r ∈ rules.filter (fun r => evalRule e r) := List.mem_filter.mpr ⟨hr, he⟩
    have hne : rules.filter (fun r => evalRule e r) ≠ [] := List.ne_nil_of_mem hmem
    have hne' : runRules e rules ≠ [] := by
      rw [runRules_eq_filter_map]
      intro h0
      exact hne (List.map_eq_nil_iff.mp h0)
    exact ⟨_, buildMessage_some e rules hne', by simp [runRules_eq_filter_map]⟩
  · intro hall
    have h0 : runRules e rules = [] := by
      rw [runRules_eq_filter_map]
      have hf : rules.filter (fun r => evalRule e r) = [] :=
        List.filter_eq_nil_iff.mpr (fun r hr => by simp [hall r hr])
      simp [hf]
    exact ⟨buildMessage_none e rules h0,
      fun marshal => by simp [processEvent, buildMessage_none e rules h0]⟩

/-- Witness for C2 at concrete inputs: `samplePostEvent` matches the one
rule `sampleOpenRule` and yields an envelope naming it; against zero
rules nothing is built or sent. -/
theorem one_envelope_with_exact_matched_rules_witness :
    (∃ msg, buildMessage samplePostEvent [sampleOpenRule] = some msg ∧
      msg.MatchedRules =
        (([sampleOpenRule]).filter (fun r => evalRule samplePostEvent r)).map CompiledRuleSet.Name) ∧
    (buildMessage sampleDeleteEvent [] = none ∧
      ∀ marshal : BroadcastMessage → Option String, processEvent marshal [] sampleDeleteEvent = none) :=
  ⟨(one_envelope_with_exact_matched_rules samplePostEvent [sampleOpenRule]).1
      ⟨sampleOpenRule, by simp, by decide⟩,
   (one_envelope_with_exact_matched_rules sampleDeleteEvent []).2 (by simp)⟩

/-- C3 counterexample. With zero declared rules the compiler does NOT
produce a "match everything" sentinel: the subscription is restricted to
the single collection `app.bsky.feed.post`, the compiled rule list is
empty, and a concrete event is matched by nothing and never broadcast —
the feed is silently empty. -/
theorem zero_rules_counterexample :
    subscriptionCollections [] = ["app.bsky.feed.post"] ∧
    compileRules (fun _ => some ⟨fun _ => true⟩) 0 [] = some [] ∧
    runRules samplePostEvent [] = [] ∧
    buildMessage samplePostEvent [] = none ∧
    workerRun (fun _ => some "bytes") [] [samplePostEvent] = [] :=
  ⟨rfl, rfl, rfl, rfl, rfl⟩

/-- C3 amended. If zero rules are declared, the compiler yields an empty
compiled rule list and defaults the ingestion subscription to the single
posts collection (to avoid an empty subscription list); at evaluation
time every event then matches zero RuleSets, so no envelope is built and
nothing is broadcast. -/
theorem zero_rules_default_subscription_and_no_broadcast
    (compile : String → Option Regexp) (marshal : BroadcastMessage → Option String)
    (e : Event) :
    compileRules compile 0 [] = some [] ∧
    subscriptionCollections [] = ["app.bsky.feed.post"] ∧
    runRules e [] = [] ∧
    buildMessage e [] = none ∧
    processEvent marshal [] e = none :=
  ⟨rfl, rfl, rfl, rfl, rfl⟩

/-- C4. Target extraction: splitting the reference URI on `/` and taking
the third segment maps `at://did:plc:abc123/app.bsky.feed.post/xyz` to
`did:plc:abc123`; any URI lacking the `at://` prefix, and any URI with
fewer than three `/`-separated segments, yields the empty "no target"
value; and an event whose extracted target is empty never satisfies a
rule with a non-empty target-users criterion. -/
theorem target_extraction_correct :
    extractDID "at://did:plc:abc123/app.bsky.feed.post/xyz" = "did:plc:abc123" ∧
    (∀ uri : String, "at://".data.isPrefixOf uri.data = false → extractDID uri = "") ∧
    (∀ uri : String, (goSplitSlash uri).length < 3 → extractDID uri = "") ∧
    (∀ (e : Event) (rule : CompiledRuleSet), classifyTarget e = "" →
      rule.TargetUsers ≠ [] → evalRule e rule = false) := by
  refine ⟨rfl, ?_, ?_, ?_⟩
  · intro uri h
    simp [extractDID, h]
  · intro uri h
    by_cases hp : "at://".data.isPrefixOf uri.data = true
    · simp [extractDID, hp, Nat.not_le.mpr h]
    · simp [extractDID, Bool.not_eq_true _ ▸ hp]
  · intro e rule hT hNe
    have hchk : targetCheck rule (classifyTarget e) = false := by
      rw [hT]
      simp [targetCheck, List.length_pos.mpr hNe]
    simp [evalRule, hchk]

/-- Witness for C4 at concrete inputs: a URI without the prefix and a
too-short URI both extract to empty, and a post event with no target
fails the concrete target-users rule. -/
theorem target_extraction_correct_witness :
    extractDID "https://example.com/a/b" = "" ∧
    extractDID "at:" = "" ∧
    classifyTarget samplePostEvent = "" ∧
    evalRule samplePostEvent sampleTargetRule = false :=
  ⟨target_extraction_correct.2.1 "https://example.com/a/b" (by decide),
   target_extraction_correct.2.2.1 "at:" (by decide),
   rfl,
   target_extraction_correct.2.2.2 samplePostEvent sampleTargetRule rfl (by decide)⟩

/-- C5 counterexample. The classifier never reads the delete payload and
takes the identity/account sentinels only from the raw payload: a delete
event whose delete payload names `app.bsky.feed.post` is classified with
the empty collection, and an identity event without a raw payload is
classified with the empty collection rather than `identity`. -/
theorem classifier_delete_payload_counterexample :
    sampleDeleteEvent.DeleteEvent = some { Collection := "app.bsky.feed.post" } ∧
    classifyCollection sampleDeleteEvent = "" ∧
    sampleIdentityEvent.kind = EventKind.identity ∧
    classifyCollection sampleIdentityEvent = "" :=
  ⟨rfl, rfl, rfl, rfl⟩

/-- C5 amended. `author_id` prefers the raw commit's author when present
and non-empty, else the event's repository identifier. The collection
prefers the raw commit's collection string, with the `identity` /
`account` sentinels taken from the presence of the raw identity/account
payloads; otherwise it falls back to a fixed kind table that covers only
post, like and repost kinds — the delete payload's collection is never
read, and delete/identity/account events without a raw payload get the
empty collection. -/
theorem classifier_precedence (e : Event) :
    (∀ rc, e.RawCommit = some rc → rc.Did ≠ "" → classifyAuthor e = rc.Did) ∧
    (∀ rc, e.RawCommit = some rc → rc.Did = "" → classifyAuthor e = e.Repo) ∧
    (e.RawCommit = none → classifyAuthor e = e.Repo) ∧
    (∀ rc ci, e.RawCommit = some rc → rc.Commit = some ci → ci.Collection ≠ "" →
      classifyCollection e = ci.Collection) ∧
    (∀ rc, e.RawCommit = some rc → rc.Commit = none → rc.Identity.isSome = true →
      classifyCollection e = "identity") ∧
    (∀ rc, e.RawCommit = some rc → rc.Commit = none → rc.Identity = none →
      rc.Account.isSome = true → classifyCollection e = "account") ∧
    (rawCollection e = "" → classifyCollection e = kindCollection e.kind) ∧
    (kindCollection .post = "app.bsky.feed.post" ∧
     kindCollection .like = "app.bsky.feed.like" ∧
     kindCollection .repost = "app.bsky.feed.repost" ∧
     kindCollection .delete = "" ∧
     kindCollection .identity = "" ∧
     kindCollection .account = "" ∧
     kindCollection .follow = "") := by
  refine ⟨?_, ?_, ?_, ?_, ?_, ?_, ?_, rfl, rfl, rfl, rfl, rfl, rfl, rfl⟩
  · intro rc h hd
    simp [classifyAuthor, h, hd]
  · intro rc h hd
    simp [classifyAuthor, h, hd]
  · intro h
    simp [classifyAuthor, h]
  · intro rc ci h hc hne
    simp [classifyCollection, rawCollection, h, hc, hne]
  · intro rc h hc hi
    simp [classifyCollection, rawCollection, h, hc, hi]
  · intro rc h hc hi ha
    simp [classifyCollection, rawCollection, h, hc, hi, ha]
  · intro h
    simp [classifyCollection, h]

/-- Witness for C5-amended at concrete inputs: a raw commit author and
collection win; without a raw payload the repo and the kind table are
used; an identity event with a raw identity payload gets the sentinel. -/
theorem classifier_precedence_witness :
    classifyAuthor
      { samplePostEvent with
        RawCommit := some { Did := "did:plc:raw", Commit := none,
                            Identity := none, Account := none } } = "did:plc:raw" ∧
    classifyAuthor samplePostEvent = "did:plc:alice" ∧
    classifyCollection
      { sampleDeleteEvent with
        RawCommit := some { Did := "did:plc:raw",
                            Commit := some { Collection := "app.bsky.graph.follow" },
                            Identity := none, Account := none } } = "app.bsky.graph.follow" ∧
    classifyCollection
      { sampleIdentityEvent with
        RawCommit := some { Did := "did:plc:raw", Commit := none,
                            Identity := some (), Account := none } } = "identity" ∧
    classifyCollection samplePostEvent = "app.bsky.feed.post" :=
  ⟨(classifier_precedence _).1 _ rfl (by decide),
   (classifier_precedence samplePostEvent).2.2.1 rfl,
   (classifier_precedence _).2.2.2.1 _ _ rfl rfl (by decide),
   (classifier_precedence _).2.2.2.2.1 _ rfl rfl rfl,
   (classifier_precedence samplePostEvent).2.2.2.2.2.2.1 rfl⟩

/-- C6. A wildcard `"*"` entry in a RuleSet's collection list makes the
collection criterion pass for every event, whatever its collection. -/
theorem wildcard_bypasses_collection_check (rule : CompiledRuleSet) (e : Event)
    (h : "*" ∈ rule.Collections) :
    collectionCheck rule (classifyCollection e) = true := by
  have hl : rule.Collections.length > 0 := List.length_pos.mpr (List.ne_nil_of_mem h)
  have hw : rule.Collections.any (fun c => c = "*") = true :=
    List.any_eq_true.mpr ⟨"*", h, by simp⟩
  simp [collectionCheck, hl, hw]

/-- Witness for C6: a wildcard rule's collection check passes on a delete
event whose collection sentinel is empty. -/
theorem wildcard_bypasses_collection_check_witness :
    collectionCheck { sampleOpenRule with Collections := ["*"] }
      (classifyCollection sampleDeleteEvent) = true :=
  wildcard_bypasses_collection_check _ sampleDeleteEvent (by decide)

/-- C7. A rule carrying at least one post-only criterion (text patterns,
URL patterns, embed kinds, languages, or a reply constraint) evaluates to
a normal non-match on every event without a post payload. -/
theorem post_only_criteria_fail_on_non_post (e : Event) (rule : CompiledRuleSet)
    (hP : e.Post = none)
    (h : rule.TextPatterns ≠ [] ∨ rule.UrlPatterns ≠ [] ∨ rule.EmbedTypes ≠ [] ∨
         rule.Langs ≠ [] ∨ rule.IsReply ≠ none) :
    evalRule e rule = false := by
  rcases h with h | h | h | h | h
  · have hchk : textCheck rule e = false := by
      simp [textCheck, List.length_pos.mpr h, hP]
    simp [evalRule, hchk]
  · have hchk : urlCheck rule e = false := by
      simp [urlCheck, List.length_pos.mpr h, hP]
    simp [evalRule, hchk]
  · have hchk : embedCheck rule e = false := by
      simp [embedCheck, List.length_pos.mpr h, hP]
    simp [evalRule, hchk]
  · have hchk : langCheck rule e = false := by
      simp [langCheck, List.length_pos.mpr h, hP]
    simp [evalRule, hchk]
  · have hchk : replyCheck rule e = false := by
      cases hR : rule.IsReply with
      | none => exact absurd hR h
      | some b => simp [replyCheck, hR, hP]
    simp [evalRule, hchk]

/-- Witness for C7: the text-pattern rule is a non-match on the concrete
delete event, which has no post payload. -/
theorem post_only_criteria_fail_on_non_post_witness :
    evalRule sampleDeleteEvent sampleTextRule = false :=
  post_only_criteria_fail_on_non_post sampleDeleteEvent sampleTextRule rfl
    (Or.inl (by simp [sampleTextRule]))

lemma compilePatterns_none (compile : String → Option Regexp) (ps : List String)
    (h : ∃ p ∈ ps, compile p = none) : compilePatterns compile ps = none := by
  induction ps with
  | nil => simp at h
  | cons q rest ih =>
    rcases h with ⟨p, hp, hc⟩
    rcases List.mem_cons.mp hp with rfl | hp'
    · simp [compilePatterns, hc]
    · cases hq : compile q with
      | none => simp [compilePatterns, hq]
      | some r => simp [compilePatterns, hq, ih ⟨p, hp', hc⟩]

lemma compileRule_none (compile : String → Option Regexp) (i : Nat) (rule : RuleSet)
    (h : (∃ p ∈ rule.TextRegexes, compile p = none) ∨
         (∃ p ∈ rule.UrlRegexes, compile p = none)) :
    compileRule compile i rule = none := by
  rcases h with h | h
  · simp [compileRule, compilePatterns_none compile _ h]
  · cases ht : compilePatterns compile rule.TextRegexes with
    | none => simp [compileRule, ht]
    | some tps => simp [compileRule, ht, compilePatterns_none compile _ h]

/-- C8. Any malformed text or URL pattern in any declared rule makes rule
compilation abort (the Go loop calls `log.Fatalf`), so the process never
starts with a partially-valid rule set and never skips a pattern at
runtime. -/
theorem malformed_pattern_is_fatal (compile : String → Option Regexp) (i : Nat)
    (rules : List RuleSet) :
    (∃ rule ∈ rules, (∃ p ∈ rule.TextRegexes, compile p = none) ∨
        (∃ p ∈ rule.UrlRegexes, compile p = none)) →
    compileRules compile i rules = none := by
  induction rules generalizing i with
  | nil => intro h; simp at h
  | cons r rest ih =>
    intro h
    rcases h with ⟨rule, hmem, hbad⟩
    rcases List.mem_cons.mp hmem with rfl | hmem'
    · simp [compileRules, compileRule_none compile i rule hbad]
    · cases hr : compileRule compile i r with
      | none => simp [compileRules, hr]
      | some cr => simp [compileRules, hr, ih (i + 1) ⟨rule, hmem', hbad⟩]

/-- Witness for C8: with a compiler that rejects every pattern, the
configuration containing `sampleBadRule` fails to compile. -/
theorem malformed_pattern_is_fatal_witness :
    compileRules (fun _ => none) 0 [sampleBadRule] = none :=
  malformed_pattern_is_fatal (fun _ => none) 0 [sampleBadRule]
    ⟨sampleBadRule, by decide, Or.inl ⟨"(", by decide, rfl⟩⟩

lemma workerRun_append (marshal : BroadcastMessage → Option String)
    (rules : List CompiledRuleSet) (l₁ l₂ : List Event) :
    workerRun marshal rules (l₁ ++ l₂) =
      workerRun marshal rules l₁ ++ workerRun marshal rules l₂ := by
  induction l₁ with
  | nil => rfl
  | cons e rest ih =>
    cases h : processEvent marshal rules e with
    | none => simp [workerRun, h, ih]
    | some d => simp [workerRun, h, ih]

/-- C9. If the envelope of one event fails to serialize, nothing is sent
for that event, and the worker's output for the rest of its queue is
exactly what it would be without that event: the failure never
propagates, the event is not retried, and every other event is
unaffected. -/
theorem marshal_failure_drops_only_that_event
    (marshal : BroadcastMessage → Option String) (rules : List CompiledRuleSet)
    (e : Event) (msg : BroadcastMessage) (before after : List Event)
    (hb : buildMessage e rules = some msg) (hm : marshal msg = none) :
    processEvent marshal rules e = none ∧
    workerRun marshal rules (before ++ e :: after) =
      workerRun marshal rules before ++ workerRun marshal rules after := by
  have hp : processEvent marshal rules e = none := by
    simp [processEvent, hb, hm]
  refine ⟨hp, ?_⟩
  rw [workerRun_append]
  simp [workerRun, hp]

/-- Witness for C9: with a marshaller that always fails, the matching
concrete event produces no bytes and the one-event queue yields an empty
broadcast sequence. -/
theorem marshal_failure_drops_only_that_event_witness :
    processEvent (fun _ => none) [sampleOpenRule] samplePostEvent = none ∧
    workerRun (fun _ => none) [sampleOpenRule] ([] ++ samplePostEvent :: []) =
      workerRun (fun _ => none) [sampleOpenRule] [] ++
        workerRun (fun _ => none) [sampleOpenRule] [] :=
  marshal_failure_drops_only_that_event (fun _ => none) [sampleOpenRule]
    samplePostEvent sampleMessage [] [] rfl rfl

/-- C10. A compiled RuleSet with an empty collections list is fully
unconstrained at evaluation time: its collection check passes for every
event, exactly as the wildcard does. -/
theorem empty_collections_fully_unconstrained (rule : CompiledRuleSet) (e : Event)
    (h : rule.Collections = []) :
    collectionCheck rule (classifyCollection e) = true ∧
    collectionCheck { rule with Collections := ["*"] } (classifyCollection e) = true := by
  constructor
  · simp [collectionCheck, h]
  · simp [collectionCheck]

/-- Witness for C10: the criteria-free rule's collection check passes on
the concrete post event, as does its wildcard variant. -/
theorem empty_collections_fully_unconstrained_witness :
    collectionCheck sampleOpenRule (classifyCollection samplePostEvent) = true ∧
    collectionCheck { sampleOpenRule with Collections := ["*"] }
      (classifyCollection samplePostEvent) = true :=
  empty_collections_fully_unconstrained sampleOpenRule samplePostEvent rfl

end Aperture
